import Mathlib

/-!
# go-jwt-middleware: the validator and the middleware options

A shallow embedding of `validator/validator.go` (`New`, `Validator.ValidateToken`)
and of `option.go` (the five `With...` options of the middleware), followed by the
properties proved about them.

Conventions of the embedding

* A Go `string` is a Lean `String`; `==` on strings is equality.
* A Go value that may be `nil` (a func, a slice, an interface, a pointer, an
  `error`) is an `Option`; a `(value, error)` result is a pair of options when the
  code builds both components itself.
* An `int64` is an integer; where the code of package `time` can overflow, the
  result is wrapped into the range of `int64` as Go does.
* A `time.Time` is its wall-clock reading, as package `time` keeps it: whole
  seconds since January 1 of year 1, and the nanoseconds within the second. A
  `time.Duration` is a count of nanoseconds.
* The custom-claims prototype is held by the validator through an interface
  value, i.e. by reference. References are addresses into a heap, and every
  function that can write through a reference takes the heap and gives it back.
* The functions of `go-jose` that `ValidateToken` calls are parameters of the
  embedding (`Deps`); a run-time panic is an explicit outcome.
-/

namespace Go

/-- Go error values, as the validator builds them: `errors.New(text)`,
`fmt.Errorf(format, args...)` without a wrapping verb (the format and the
arguments are kept apart, unrendered), and `fmt.Errorf(format, cause)` whose
format ends in the wrapping verb. -/
inductive Error where
  | errorsNew (text : String)
  | errorf (format : String) (args : List String)
  | errorfW (format : String) (cause : Error)
deriving DecidableEq, Repr

/-- The call `errors.Unwrap(err)`: the wrapped cause, when there is one. -/
def Unwrap : Error → Option Error
  | .errorfW _ cause => some cause
  | _ => none

/-- A `time.Duration`: a count of nanoseconds. -/
structure Duration where
  nanos : Int
deriving DecidableEq, Repr

/-- The value of `x` as an `int64`: Go integer arithmetic wraps around silently. -/
def wrapInt64 (x : Int) : Int :=
  (x + 9223372036854775808) % 18446744073709551616 - 9223372036854775808

/-- The largest `int64`, `1<<63 - 1`. -/
def maxInt64 : Int := 9223372036854775807

/-- Go's integer division `a / b` for a positive `b`: it truncates toward zero. -/
def truncDiv (a b : Int) : Int := if 0 ≤ a then a / b else -((-a) / b)

/-- Go's remainder `a % b` for a positive `b`: it has the sign of `a`. -/
def truncMod (a b : Int) : Int := a - b * truncDiv a b

/-- The constant `unixToInternal` of package `time`: the seconds from January 1 of
year 1 to January 1 of 1970. -/
def unixToInternal : Int := 62135596800

/-- A `time.Time`, as its accessors `sec()` and `nsec()` give it: the seconds since
January 1 of year 1 (an `int64`) and the nanoseconds within the second (from 0 to
999999999). The monotonic reading that `time.Now()` adds plays no part when a time
is compared with one built by `time.Unix`, and is left out. -/
structure Time where
  sec : Int
  nsec : Int
deriving DecidableEq, Repr

/-- The call `time.Unix(sec, 0)`: the seconds are shifted to the internal epoch, an
`int64` addition that wraps around. -/
def Unix (sec : Int) : Time := ⟨wrapInt64 (sec + unixToInternal), 0⟩

/-- The method `t.Unix()`: whole seconds since the Unix epoch. -/
def Time.Unix (t : Time) : Int := wrapInt64 (t.sec - unixToInternal)

/-- The method `addSec` of package `time`: `d` seconds are added, and a sum that
overflows is replaced by the end of the range it ran over. -/
def Time.addSec (t : Time) (d : Int) : Time :=
  let sum := wrapInt64 (t.sec + d)
  if decide (t.sec < sum) = decide (0 < d) then { t with sec := sum }
  else if 0 < d then { t with sec := maxInt64 }
  else { t with sec := -maxInt64 }

/-- The method `t.Add(d)`: the duration is split into whole seconds and a rest, the
rest is added to the nanoseconds with a carry, and the seconds are added. -/
def Time.Add (t : Time) (d : Duration) : Time :=
  let dsec := truncDiv d.nanos 1000000000
  let nsec := t.nsec + truncMod d.nanos 1000000000
  if 1000000000 ≤ nsec then
    ({ t with nsec := nsec - 1000000000 } : Time).addSec (dsec + 1)
  else if nsec < 0 then
    ({ t with nsec := nsec + 1000000000 } : Time).addSec (dsec - 1)
  else
    ({ t with nsec := nsec } : Time).addSec dsec

/-- The method `t.After(u)`: the seconds are compared, then the nanoseconds. -/
def Time.After (t u : Time) : Bool :=
  decide (u.sec < t.sec) || (decide (t.sec = u.sec) && decide (u.nsec < t.nsec))

/-- The method `t.Before(u)`: the seconds are compared, then the nanoseconds. -/
def Time.Before (t u : Time) : Bool :=
  decide (t.sec < u.sec) || (decide (t.sec = u.sec) && decide (t.nsec < u.nsec))

/-- The negation `-d` of a duration, an `int64` negation. -/
def Duration.neg (d : Duration) : Duration := ⟨wrapInt64 (-d.nanos)⟩

end Go

namespace jose

/-- The part of `jose.Header` that the validator reads. -/
structure Header where
  Algorithm : String
deriving DecidableEq, Repr

end jose

namespace jwt

open Go

/-- The type `jwt.NumericDate` (`type NumericDate int64`): seconds since the epoch,
within the range of `int64`. -/
structure NumericDate where
  sec : Int
  lower : -9223372036854775808 ≤ sec
  upper : sec ≤ 9223372036854775807
deriving DecidableEq, Repr

/-- The conversion `jwt.NumericDate(x)` of an `int64`. -/
def NumericDate.ofInt64 (x : Int) : NumericDate :=
  ⟨Go.wrapInt64 x, by unfold Go.wrapInt64; omega, by unfold Go.wrapInt64; omega⟩

/-- The method `(*NumericDate).Time`, which is `time.Unix(int64(*n), 0)`. -/
def NumericDate.Time (n : NumericDate) : Go.Time := Go.Unix n.sec

/-- The struct `jwt.Claims`, with the seven fields that `ValidateToken` reads: the
registered claims as decoded from a token. The three timestamps are pointers in
Go, nil when the token has no such claim. -/
structure Claims where
  Issuer : String
  Subject : String
  Audience : List String
  Expiry : Option NumericDate
  NotBefore : Option NumericDate
  IssuedAt : Option NumericDate
  ID : String
deriving DecidableEq, Repr

/-- The zero value `jwt.Claims{}`. -/
def Claims.zero : Claims :=
  { Issuer := "", Subject := "", Audience := [], Expiry := none, NotBefore := none,
    IssuedAt := none, ID := "" }

/-- The fields of `jwt.Expected` that `New` sets. -/
structure Expected where
  Issuer : String
  Audience : List String
  Time : Go.Time
deriving DecidableEq, Repr

/-- Modelled from the spec: the error naming the issuer constraint. -/
def ErrInvalidIssuer : Error := .errorsNew "validation failed, invalid issuer claim (iss)"

/-- Modelled from the spec: the error naming the audience constraint. -/
def ErrInvalidAudience : Error := .errorsNew "validation failed, invalid audience claim (aud)"

/-- Modelled from the spec: the error naming the expiry constraint. -/
def ErrExpired : Error := .errorsNew "validation failed, token is expired (exp)"

/-- Modelled from the spec: the error naming the not-before constraint. -/
def ErrNotValidYet : Error := .errorsNew "validation failed, token not valid yet (nbf)"

/-- Modelled from the spec: the expiry constraint of section 4.2 step 5 fails. The
expiry is present, and the reference time minus the skew exceeds it. -/
def expired (c : Claims) (e : Expected) (leeway : Duration) : Bool :=
  match c.Expiry with
  | some exp => (e.Time.Add leeway.neg).After exp.Time
  | none => false

/-- Modelled from the spec: the not-before constraint of section 4.2 step 5 fails.
The not-before is present, and the reference time plus the skew precedes it. -/
def notValidYet (c : Claims) (e : Expected) (leeway : Duration) : Bool :=
  match c.NotBefore with
  | some nbf => (e.Time.Add leeway).Before nbf.Time
  | none => false

/-- Modelled from the spec: `jwt.Claims.ValidateWithLeeway` of go-jose, which
`ValidateToken` calls and whose source is not among the repository's files. It
follows section 4.2 step 5: the issuer must equal the expected one exactly; the
audiences must intersect; if the expiry is present, the reference time minus the
skew must not exceed it; if the not-before is present, the reference time plus
the skew must not precede it; a violation is an error naming the constraint. -/
def ValidateWithLeeway (c : Claims) (e : Expected) (leeway : Duration) : Option Error :=
  if e.Issuer ≠ c.Issuer then some ErrInvalidIssuer
  else if ¬ (e.Audience.any fun a => c.Audience.contains a) = true then some ErrInvalidAudience
  else if expired c e leeway = true then some ErrExpired
  else if notValidYet c e leeway = true then some ErrNotValidYet
  else none

end jwt

namespace validator

open Go

/-- Modelled from the spec: the struct `RegisteredClaims` of the validator
package, declared outside the files at hand. Section 3: issuer, subject, audience
(ordered sequence of strings), JWT ID, and expiry, not-before and issued-at as
Unix timestamps (`int64`, zero when unset). -/
structure RegisteredClaims where
  Issuer : String
  Subject : String
  Audience : List String
  Expiry : Int
  NotBefore : Int
  IssuedAt : Int
  ID : String
deriving DecidableEq, Repr

/-- An address in the heap of custom-claims objects. -/
abbrev Addr := Nat

/-- Modelled from the spec: the struct `ValidatedClaims`, declared outside the
files at hand. Section 3: the composition of the registered claims and the custom
claims, if configured. The custom claims are an interface value: `none` is the nil
interface, `some a` refers to the object at address `a`. -/
structure ValidatedClaims where
  RegisteredClaims : RegisteredClaims
  CustomClaims : Option Addr
deriving DecidableEq, Repr

/-- The struct `Validator`. `keyFunc` and `customClaims` may be nil. -/
structure Validator (Ctx Key : Type) where
  keyFunc : Option (Ctx → Except Error Key)
  signatureAlgorithm : String
  expectedClaims : jwt.Expected
  customClaims : Option Addr
  allowedClockSkew : Duration

/-- What a call can read besides its arguments: the wall clock at the time of the
call, and the heap of custom-claims objects. -/
structure World (CC : Type) where
  clock : Time
  heap : Addr → CC

/-- What `token.Claims(key, dest...)` leaves behind: the error it returns, the
content of the first destination (a fresh `jwt.Claims`), and the content of the
second destination when there is one. -/
structure ClaimsOut (CC : Type) where
  err : Option Error
  registered : jwt.Claims
  custom : Option CC

/-- The collaborators of `ValidateToken`, none of them part of the repository's
files: `jwt.ParseSigned`, the `Headers` of a parsed token, `token.Claims` (which
verifies the signature with the key and decodes the payload into the
destinations; its third argument is the content of the custom-claims destination
before the call, absent when there is none), `Claims.ValidateWithLeeway`, and the
`Validate` method of the custom claims, which reads the object it is called on
and the context. -/
structure Deps (Ctx Key Tok CC : Type) where
  ParseSigned : String → Except Error Tok
  Headers : Tok → List jose.Header
  Claims : Tok → Key → Option CC → ClaimsOut CC
  ValidateWithLeeway : jwt.Claims → jwt.Expected → Duration → Option Error
  Validate : CC → Ctx → Option Error

/-- How a call ends: it returns its pair of results, or it panics. -/
inductive Outcome (α : Type) where
  | returned (value : Option α) (err : Option Error)
  | panicked
deriving DecidableEq, Repr

/-- The function `New`. `now` is what `time.Now()` returns during the call. An
option is a function on the validator under construction. -/
def New {Ctx Key : Type} (keyFunc : Option (Ctx → Except Error Key))
    (signatureAlgorithm : String) (issuerURL : String) (audience : Option (List String))
    (opts : List (Validator Ctx Key → Validator Ctx Key)) (now : Time) :
    Option (Validator Ctx Key) × Option Error :=
  match keyFunc with
  | none => (none, some (.errorsNew "keyFunc is required but was nil"))
  | some kf =>
    if signatureAlgorithm = "" then
      (none, some (.errorsNew "signature algorithm is required but was empty"))
    else if issuerURL = "" then
      (none, some (.errorsNew "issuer url is required but was empty"))
    else
      match audience with
      | none => (none, some (.errorsNew "audience is required but was nil"))
      | some aud =>
        let v : Validator Ctx Key :=
          { keyFunc := some kf
            signatureAlgorithm := signatureAlgorithm
            expectedClaims := { Issuer := issuerURL, Audience := aud, Time := now }
            customClaims := none
            allowedClockSkew := ⟨0⟩ }
        (some (opts.foldl (fun v opt => opt v) v), none)

/-- The heap after `token.Claims` has written into the custom-claims destination. -/
def writeCustom {CC : Type} (heap : Addr → CC) (dest : Option Addr) (content : Option CC) :
    Addr → CC :=
  match dest, content with
  | some a, some c => Function.update heap a c
  | _, _ => heap

/-- The conversion of lines 95 to 114: the four plain fields are copied, and each
timestamp is converted with `Time().Unix()` when its pointer is not nil. -/
def toRegisteredClaims (registeredClaims : jwt.Claims) : RegisteredClaims :=
  let rc : RegisteredClaims :=
    { Issuer := registeredClaims.Issuer
      Subject := registeredClaims.Subject
      Audience := registeredClaims.Audience
      Expiry := 0
      NotBefore := 0
      IssuedAt := 0
      ID := registeredClaims.ID }
  let rc := match registeredClaims.Expiry with
    | some exp => { rc with Expiry := exp.Time.Unix }
    | none => rc
  let rc := match registeredClaims.NotBefore with
    | some nbf => { rc with NotBefore := nbf.Time.Unix }
    | none => rc
  match registeredClaims.IssuedAt with
  | some iat => { rc with IssuedAt := iat.Time.Unix }
  | none => rc

/-- The method `Validator.ValidateToken`. -/
def ValidateToken {Ctx Key Tok CC : Type} (d : Deps Ctx Key Tok CC) (v : Validator Ctx Key)
    (ctx : Ctx) (tokenString : String) (w : World CC) :
    Outcome ValidatedClaims × World CC :=
  match d.ParseSigned tokenString with
  | .error err => (.returned none (some (.errorfW "could not parse the token: %w" err)), w)
  | .ok token =>
    match d.Headers token with
    | [] => (.panicked, w)
    | header0 :: _ =>
      if v.signatureAlgorithm ≠ header0.Algorithm then
        (.returned none (some (.errorf
          "expected %q signing algorithm but token specified %q"
          [v.signatureAlgorithm, header0.Algorithm])), w)
      else
        match v.keyFunc with
        | none => (.panicked, w)
        | some keyFunc =>
          match keyFunc ctx with
          | .error err =>
            (.returned none
              (some (.errorfW "error getting the keys from the key func: %w" err)), w)
          | .ok key =>
            let out := d.Claims token key (v.customClaims.map w.heap)
            let w1 : World CC := { w with heap := writeCustom w.heap v.customClaims out.custom }
            match out.err with
            | some err =>
              (.returned none (some (.errorfW "could not get token claims: %w" err)), w1)
            | none =>
              let registeredClaims := out.registered
              match d.ValidateWithLeeway registeredClaims v.expectedClaims
                  v.allowedClockSkew with
              | some err =>
                (.returned none (some (.errorfW "expected claims not validated: %w" err)), w1)
              | none =>
                let validatedClaims : ValidatedClaims :=
                  { RegisteredClaims := toRegisteredClaims registeredClaims
                    CustomClaims := none }
                match v.customClaims with
                | some a =>
                  let validatedClaims := { validatedClaims with CustomClaims := some a }
                  match d.Validate (w1.heap a) ctx with
                  | some err =>
                    (.returned none
                      (some (.errorfW "custom claims not validated: %w" err)), w1)
                  | none => (.returned (some validatedClaims) none, w1)
                | none => (.returned (some validatedClaims) none, w1)

end validator

namespace jwtmiddleware

/-- The fields of `net/url.URL`. `Path` is the one the exclusion handler reads
directly; the others only enter through the rendering `URL.String()`. -/
structure URL where
  Scheme : String
  Host : String
  Path : String
  RawQuery : String
  Fragment : String
deriving DecidableEq, Repr

/-- The part of `http.Request` the options deal with. A request that reaches the
middleware carries a parsed URL. -/
structure Request where
  Method : String
  URL : URL
deriving DecidableEq, Repr

/-- Modelled from the spec: the struct `JWTMiddleware`, declared outside the files
at hand; `option.go` names five of its fields. Section 3: a configuration object
composing a validator-like capability plus policy flags (credentials-optional,
validate-on-OPTIONS, exclusion predicate, token extractor, error handler). The
types of the capability, of the error handler and of the token extractor are
parameters. The exclusion predicate receives a pointer to the request, so it maps
the request to its answer and to the request as it is afterwards. -/
structure JWTMiddleware (VT EH TE : Type) where
  validateToken : VT
  errorHandler : EH
  tokenExtractor : TE
  credentialsOptional : Bool
  validateOnOptions : Bool
  exclusionUrlHandler : Request → Bool × Request

/-- The type `Option`: a function that updates the middleware it is given. -/
def Option (VT EH TE : Type) : Type := JWTMiddleware VT EH TE → JWTMiddleware VT EH TE

/-- The option `WithCredentialsOptional`. -/
def WithCredentialsOptional {VT EH TE : Type} (value : Bool) : Option VT EH TE :=
  fun m => { m with credentialsOptional := value }

/-- The option `WithValidateOnOptions`. -/
def WithValidateOnOptions {VT EH TE : Type} (value : Bool) : Option VT EH TE :=
  fun m => { m with validateOnOptions := value }

/-- The option `WithErrorHandler`. -/
def WithErrorHandler {VT EH TE : Type} (h : EH) : Option VT EH TE :=
  fun m => { m with errorHandler := h }

/-- The option `WithTokenExtractor`. -/
def WithTokenExtractor {VT EH TE : Type} (e : TE) : Option VT EH TE :=
  fun m => { m with tokenExtractor := e }

/-- The loop of the exclusion handler: the first entry equal to the full URL or
to the path answers true; running out of entries answers false. -/
def exclusionLoop (requestFullURL requestPath : String) : List String → Bool
  | [] => false
  | exclusion :: rest =>
    if requestFullURL = exclusion ∨ requestPath = exclusion then true
    else exclusionLoop requestFullURL requestPath rest

/-- The closure that `WithExclusionUrls` installs. `urlString` is the rendering
`URL.String()` of `net/url`. -/
def exclusionUrlHandler (urlString : URL → String) (exclusions : List String)
    (r : Request) : Bool × Request :=
  let requestFullURL := urlString r.URL
  let requestPath := r.URL.Path
  (exclusionLoop requestFullURL requestPath exclusions, r)

/-- The option `WithExclusionUrls`. -/
def WithExclusionUrls {VT EH TE : Type} (urlString : URL → String)
    (exclusions : List String) : Option VT EH TE :=
  fun m => { m with exclusionUrlHandler := exclusionUrlHandler urlString exclusions }

end jwtmiddleware

/-! ## A concrete instance

Sample tokens and collaborators on which the definitions are evaluated: a token
is a record of what its three segments would decode to, a key is a name, and the
custom claims are a single string (a name that must not be empty). -/

namespace sample

open Go validator

/-- A parsed sample token: the algorithm of its header, the key that verifies its
signature, its registered claims and its custom claim. -/
structure Token where
  Algorithm : String
  signedWith : String
  registered : jwt.Claims
  name : String
deriving DecidableEq, Repr

/-- Registered claims for the sample issuer and audience, expiring at `exp`. -/
def claimsExpiring (exp : Int) : jwt.Claims :=
  { Issuer := "https://issuer.example", Subject := "user-1", Audience := ["svc-a"],
    Expiry := some (jwt.NumericDate.ofInt64 exp), NotBefore := none, IssuedAt := none,
    ID := "id-1" }

/-- The sample token strings. -/
def ParseSigned (s : String) : Except Error Token :=
  if s = "alice" then .ok ⟨"RS256", "k1", claimsExpiring 150, "alice"⟩
  else if s = "bob" then .ok ⟨"RS256", "k1", claimsExpiring 150, "bob"⟩
  else if s = "anonymous" then .ok ⟨"RS256", "k1", claimsExpiring 150, ""⟩
  else if s = "lowercase" then .ok ⟨"rs256", "k1", claimsExpiring 150, "alice"⟩
  else if s = "exp989" then .ok ⟨"RS256", "k1", claimsExpiring 989, "alice"⟩
  else if s = "exp990" then .ok ⟨"RS256", "k1", claimsExpiring 990, "alice"⟩
  else .error (.errorsNew "compact JWS format must have three parts")

/-- Signature verification and decoding of a sample token: the key must be the
one the token was signed with; then the registered claims are the token's and the
custom destination, when there is one, receives the token's name. -/
def Claims (t : Token) (key : String) (dest : Option String) : ClaimsOut String :=
  if key = t.signedWith then
    { err := none, registered := t.registered, custom := dest.map fun _ => t.name }
  else
    { err := some (.errorsNew "error in cryptographic primitive"),
      registered := jwt.Claims.zero, custom := dest }

/-- The custom claims validate themselves: the name is required. -/
def Validate (c : String) (_ctx : Unit) : Option Error :=
  if c = "" then some (.errorsNew "name is required") else none

/-- The sample collaborators. -/
def deps : Deps Unit String Token String :=
  { ParseSigned := ParseSigned
    Headers := fun t => [⟨t.Algorithm⟩]
    Claims := Claims
    ValidateWithLeeway := jwt.ValidateWithLeeway
    Validate := Validate }

/-- A key resolver that yields the key `k1`. -/
def keyFunc : Unit → Except Error String := fun _ => .ok "k1"

/-- A key resolver that fails. -/
def failingKeyFunc : Unit → Except Error String :=
  fun _ => .error (.errorsNew "key set unreachable")

/-- A validator for the sample issuer and audience, with reference time `t`, clock
skew `skew` and custom-claims prototype `proto`. -/
def validatorWith (kf : Unit → Except Error String) (t : Time) (skew : Duration)
    (proto : Option Addr) : Validator Unit String :=
  { keyFunc := some kf
    signatureAlgorithm := "RS256"
    expectedClaims := { Issuer := "https://issuer.example", Audience := ["svc-a"], Time := t }
    customClaims := proto
    allowedClockSkew := skew }

/-- A world at clock reading `t` seconds in which every custom-claims object is
the empty name. -/
def worldAt (t : Int) : World String := { clock := Go.Unix t, heap := fun _ => "" }

/-- A sample rendering of a URL: scheme, host and path. -/
def urlString (u : jwtmiddleware.URL) : String := u.Scheme ++ "://" ++ u.Host ++ u.Path

/-- A sample request for the path `p` on the host `api.example`. -/
def requestFor (p : String) : jwtmiddleware.Request :=
  { Method := "GET"
    URL := { Scheme := "https", Host := "api.example", Path := p, RawQuery := "", Fragment := "" } }

/-- A sample middleware configuration. -/
def middleware : jwtmiddleware.JWTMiddleware Nat Nat Nat :=
  { validateToken := 0, errorHandler := 1, tokenExtractor := 2,
    credentialsOptional := false, validateOnOptions := true,
    exclusionUrlHandler := fun r => (false, r) }

end sample

/-! ## Properties of the validator -/

namespace validator

open Go

/-- C1: when the token string parses and the algorithm of the token's first header
differs from the validator's signature algorithm (string equality, so a difference
in letter case is a difference), `ValidateToken` returns no claims and the
algorithm-mismatch error, for every key resolver and every behaviour of signature
verification, and leaves the world as it was. -/
theorem ValidateToken_algorithm_mismatch {Ctx Key Tok CC : Type} (d : Deps Ctx Key Tok CC)
    (v : Validator Ctx Key) (ctx : Ctx) (tokenString : String) (w : World CC)
    (token : Tok) (header0 : jose.Header) (rest : List jose.Header)
    (hparse : d.ParseSigned tokenString = .ok token)
    (hheaders : d.Headers token = header0 :: rest)
    (hne : header0.Algorithm ≠ v.signatureAlgorithm) :
    ValidateToken d v ctx tokenString w =
      (.returned none (some (.errorf "expected %q signing algorithm but token specified %q"
        [v.signatureAlgorithm, header0.Algorithm])), w) := by
  have hne2 : v.signatureAlgorithm ≠ header0.Algorithm := fun h => hne h.symm
  simp only [ValidateToken, hparse, hheaders]
  simp [hne2]

/-- The instance of C1 with a letter-case difference only: the validator expects
RS256 and the token declares rs256. -/
theorem ValidateToken_algorithm_mismatch_witness :
    ValidateToken sample.deps (sample.validatorWith sample.keyFunc (Go.Unix 100) ⟨0⟩ none) ()
        "lowercase" (sample.worldAt 100) =
      (.returned none (some (.errorf "expected %q signing algorithm but token specified %q"
        ["RS256", "rs256"])), sample.worldAt 100) :=
  ValidateToken_algorithm_mismatch sample.deps
    (sample.validatorWith sample.keyFunc (Go.Unix 100) ⟨0⟩ none) () "lowercase"
    (sample.worldAt 100) ⟨"rs256", "k1", sample.claimsExpiring 150, "alice"⟩ ⟨"rs256"⟩ []
    (by rfl) (by rfl) (by decide)

/-- C2: `New` returns no validator and an error when the key resolver is nil, or
the signature algorithm is empty, or the issuer is empty, or the audience is nil;
in every other case, whatever the audience holds and whatever the options do, it
returns a validator and no error. -/
theorem New_contract {Ctx Key : Type} (keyFunc : Option (Ctx → Except Error Key))
    (signatureAlgorithm issuerURL : String) (audience : Option (List String))
    (opts : List (Validator Ctx Key → Validator Ctx Key)) (now : Time) :
    ((keyFunc = none ∨ signatureAlgorithm = "" ∨ issuerURL = "" ∨ audience = none) →
      (New keyFunc signatureAlgorithm issuerURL audience opts now).1 = none ∧
      (New keyFunc signatureAlgorithm issuerURL audience opts now).2 ≠ none) ∧
    (¬ (keyFunc = none ∨ signatureAlgorithm = "" ∨ issuerURL = "" ∨ audience = none) →
      (New keyFunc signatureAlgorithm issuerURL audience opts now).1 ≠ none ∧
      (New keyFunc signatureAlgorithm issuerURL audience opts now).2 = none) := by
  cases keyFunc with
  | none => simp [New]
  | some kf =>
    by_cases halg : signatureAlgorithm = ""
    · simp [New, halg]
    · by_cases hiss : issuerURL = ""
      · simp [New, halg, hiss]
      · cases audience with
        | none => simp [New, halg, hiss]
        | some aud => simp [New, halg, hiss]

/-- The instance of C2 with an audience that is not nil but empty: construction
succeeds. -/
theorem New_contract_witness :
    (New (some sample.keyFunc) "RS256" "https://issuer.example" (some [])
        ([] : List (Validator Unit String → Validator Unit String)) (Go.Unix 100)).1 ≠ none ∧
    (New (some sample.keyFunc) "RS256" "https://issuer.example" (some [])
        ([] : List (Validator Unit String → Validator Unit String)) (Go.Unix 100)).2 = none :=
  (New_contract (some sample.keyFunc) "RS256" "https://issuer.example" (some []) []
    (Go.Unix 100)).2 (by simp)

/-- The outcome of `ValidateToken` and the heap it leaves do not depend on what the
clock reads when it is called: the method never reads the clock. -/
theorem ValidateToken_ignores_clock {Ctx Key Tok CC : Type} (d : Deps Ctx Key Tok CC)
    (v : Validator Ctx Key) (ctx : Ctx) (tokenString : String) (w : World CC) (t : Time) :
    (ValidateToken d v ctx tokenString { w with clock := t }).1 =
      (ValidateToken d v ctx tokenString w).1 ∧
    (ValidateToken d v ctx tokenString { w with clock := t }).2.heap =
      (ValidateToken d v ctx tokenString w).2.heap := by
  simp only [ValidateToken]
  split
  · exact ⟨rfl, rfl⟩
  · split
    · exact ⟨rfl, rfl⟩
    · split
      · exact ⟨rfl, rfl⟩
      · split
        · exact ⟨rfl, rfl⟩
        · split
          · exact ⟨rfl, rfl⟩
          · split
            · exact ⟨rfl, rfl⟩
            · split
              · exact ⟨rfl, rfl⟩
              · split
                · split <;> exact ⟨rfl, rfl⟩
                · exact ⟨rfl, rfl⟩

/-- C3, evaluated on the code: a validator is constructed by `New` when the clock
reads 100 s, with no clock skew. The token `alice` expires at 150 s: after the
construction, and before a call made when the clock reads 200 s, so the expiry
constraint taken against the time of that call fails. `ValidateToken` nevertheless
accepts the token at 200 s, and at every other clock reading of the call: the
reference time it hands to the registered-claims validation is the one `New`
stored. -/
theorem ValidateToken_accepts_token_expired_since_construction :
    ∃ v : Validator Unit String,
      New (some sample.keyFunc) "RS256" "https://issuer.example" (some ["svc-a"]) []
        (Go.Unix 100) = (some v, none) ∧
      v.expectedClaims.Time = Go.Unix 100 ∧
      jwt.expired (sample.claimsExpiring 150)
        { v.expectedClaims with Time := (sample.worldAt 200).clock } v.allowedClockSkew = true ∧
      ∀ t : Int, (ValidateToken sample.deps v () "alice" (sample.worldAt t)).1 =
        .returned (some
          { RegisteredClaims :=
              { Issuer := "https://issuer.example", Subject := "user-1", Audience := ["svc-a"],
                Expiry := 150, NotBefore := 0, IssuedAt := 0, ID := "id-1" }
            CustomClaims := none }) none :=
  ⟨_, rfl, rfl, by decide, fun _ => by rfl⟩

/-- C5: for a validator whose custom-claims prototype is the object at address
`a`, and a token for which parsing, the algorithm check, key resolution, signature
verification with decoding, and the registered-claims validation all succeed: the
object at `a` holds the decoded custom claims after the call; if their `Validate`
returns an error, `ValidateToken` returns no claims and that error wrapped; if
their `Validate` succeeds, `ValidateToken` returns the validated claims, whose
custom claims refer to the object at `a`, and no error. -/
theorem ValidateToken_custom_claims {Ctx Key Tok CC : Type} (d : Deps Ctx Key Tok CC)
    (v : Validator Ctx Key) (ctx : Ctx) (tokenString : String) (w : World CC)
    (token : Tok) (header0 : jose.Header) (rest : List jose.Header)
    (kf : Ctx → Except Error Key) (key : Key) (a : Addr)
    (hcustom : v.customClaims = some a)
    (hparse : d.ParseSigned tokenString = .ok token)
    (hheaders : d.Headers token = header0 :: rest)
    (halg : v.signatureAlgorithm = header0.Algorithm)
    (hkf : v.keyFunc = some kf) (hkey : kf ctx = .ok key)
    (hsig : (d.Claims token key (some (w.heap a))).err = none)
    (hreg : d.ValidateWithLeeway (d.Claims token key (some (w.heap a))).registered
      v.expectedClaims v.allowedClockSkew = none) :
    (ValidateToken d v ctx tokenString w).2.heap a =
      (d.Claims token key (some (w.heap a))).custom.getD (w.heap a) ∧
    (∀ e : Error, d.Validate ((ValidateToken d v ctx tokenString w).2.heap a) ctx = some e →
      (ValidateToken d v ctx tokenString w).1 =
        .returned none (some (.errorfW "custom claims not validated: %w" e))) ∧
    (d.Validate ((ValidateToken d v ctx tokenString w).2.heap a) ctx = none →
      (ValidateToken d v ctx tokenString w).1 =
        .returned (some
          { RegisteredClaims :=
              toRegisteredClaims (d.Claims token key (some (w.heap a))).registered
            CustomClaims := some a }) none) := by
  have hrun : ValidateToken d v ctx tokenString w =
      (match d.Validate (writeCustom w.heap (some a)
          (d.Claims token key (some (w.heap a))).custom a) ctx with
        | some err => .returned none (some (.errorfW "custom claims not validated: %w" err))
        | none => .returned (some
            { RegisteredClaims :=
                toRegisteredClaims (d.Claims token key (some (w.heap a))).registered
              CustomClaims := some a }) none,
       { w with
          heap := (writeCustom w.heap (some a) (d.Claims token key (some (w.heap a))).custom) }) := by
    simp only [ValidateToken, hparse, hheaders, hkf, hkey, hcustom, Option.map, hsig, hreg]
    simp only [halg, ne_eq, not_true_eq_false, if_false]
    split <;> rfl
  have hheap : writeCustom w.heap (some a) (d.Claims token key (some (w.heap a))).custom a =
      (d.Claims token key (some (w.heap a))).custom.getD (w.heap a) := by
    cases (d.Claims token key (some (w.heap a))).custom <;> simp [writeCustom]
  rw [hrun]
  refine ⟨hheap, ?_, ?_⟩
  · intro e he
    simp only [] at he ⊢
    rw [he]
  · intro he
    simp only [] at he ⊢
    rw [he]

/-- The instance of C5 on the sample tokens: the token without a name fails the
custom validation and yields no claims; for the token of alice the prototype
holds her name after the call. -/
theorem ValidateToken_custom_claims_witness :
    (ValidateToken sample.deps (sample.validatorWith sample.keyFunc (Go.Unix 100) ⟨0⟩ (some 0))
        () "anonymous" (sample.worldAt 100)).1 =
      .returned none (some (.errorfW "custom claims not validated: %w"
        (.errorsNew "name is required"))) ∧
    (ValidateToken sample.deps (sample.validatorWith sample.keyFunc (Go.Unix 100) ⟨0⟩ (some 0))
        () "alice" (sample.worldAt 100)).2.heap 0 = "alice" :=
  ⟨(ValidateToken_custom_claims sample.deps
      (sample.validatorWith sample.keyFunc (Go.Unix 100) ⟨0⟩ (some 0)) () "anonymous"
      (sample.worldAt 100) ⟨"RS256", "k1", sample.claimsExpiring 150, ""⟩ ⟨"RS256"⟩ []
      sample.keyFunc "k1" 0 rfl rfl rfl rfl rfl rfl rfl rfl).2.1 _ rfl,
   (ValidateToken_custom_claims sample.deps
      (sample.validatorWith sample.keyFunc (Go.Unix 100) ⟨0⟩ (some 0)) () "alice"
      (sample.worldAt 100) ⟨"RS256", "k1", sample.claimsExpiring 150, "alice"⟩ ⟨"RS256"⟩ []
      sample.keyFunc "k1" 0 rfl rfl rfl rfl rfl rfl rfl rfl).1⟩

/-- C6: for a token that parses and declares the configured algorithm, if the key
resolver, called with the context of the call, returns the error `e`, then
`ValidateToken` returns no claims and an error whose unwrapping gives `e` back;
the world is left as it was, and the result is the same for every behaviour of
claim decoding, of registered-claims validation and of custom-claims validation,
none of which is reached. -/
theorem ValidateToken_key_resolver_error {Ctx Key Tok CC : Type} (d : Deps Ctx Key Tok CC)
    (v : Validator Ctx Key) (ctx : Ctx) (tokenString : String) (w : World CC)
    (token : Tok) (header0 : jose.Header) (rest : List jose.Header)
    (kf : Ctx → Except Error Key) (e : Error)
    (hparse : d.ParseSigned tokenString = .ok token)
    (hheaders : d.Headers token = header0 :: rest)
    (halg : v.signatureAlgorithm = header0.Algorithm)
    (hkf : v.keyFunc = some kf) (hkey : kf ctx = .error e) :
    ∃ err : Error,
      ValidateToken d v ctx tokenString w = (.returned none (some err), w) ∧
      Unwrap err = some e ∧
      ∀ d2 : Deps Ctx Key Tok CC, d2.ParseSigned = d.ParseSigned → d2.Headers = d.Headers →
        ValidateToken d2 v ctx tokenString w = (.returned none (some err), w) := by
  refine ⟨.errorfW "error getting the keys from the key func: %w" e, ?_, rfl, ?_⟩
  · simp only [ValidateToken, hparse, hheaders, hkf, hkey]
    simp [halg]
  · intro d2 hp hh
    simp only [ValidateToken, hp, hh, hparse, hheaders, hkf, hkey]
    simp [halg]

/-- The instance of C6 with a key resolver that fails: the error of the resolver
is recovered by unwrapping. -/
theorem ValidateToken_key_resolver_error_witness :
    ∃ err : Error,
      ValidateToken sample.deps
          (sample.validatorWith sample.failingKeyFunc (Go.Unix 100) ⟨0⟩ (some 0)) () "alice"
          (sample.worldAt 100) = (.returned none (some err), sample.worldAt 100) ∧
      Unwrap err = some (.errorsNew "key set unreachable") ∧
      ∀ d2 : Deps Unit String sample.Token String,
        d2.ParseSigned = sample.deps.ParseSigned → d2.Headers = sample.deps.Headers →
        ValidateToken d2 (sample.validatorWith sample.failingKeyFunc (Go.Unix 100) ⟨0⟩ (some 0))
          () "alice" (sample.worldAt 100) = (.returned none (some err), sample.worldAt 100) :=
  ValidateToken_key_resolver_error sample.deps
    (sample.validatorWith sample.failingKeyFunc (Go.Unix 100) ⟨0⟩ (some 0)) () "alice"
    (sample.worldAt 100) ⟨"RS256", "k1", sample.claimsExpiring 150, "alice"⟩ ⟨"RS256"⟩ []
    sample.failingKeyFunc (.errorsNew "key set unreachable") rfl rfl rfl rfl rfl

/-- Converting a numeric date to a time and back to whole seconds gives the
numeric date. -/
theorem NumericDate_Time_Unix (n : jwt.NumericDate) : n.Time.Unix = n.sec := by
  have hl := n.lower
  have hu := n.upper
  simp only [jwt.NumericDate.Time, Go.Unix, Time.Unix, wrapInt64, unixToInternal]
  omega

/-- The record built from decoded registered claims: the plain fields are copied,
a present timestamp gives its seconds, an absent one gives zero. -/
theorem toRegisteredClaims_fields (c : jwt.Claims) :
    (toRegisteredClaims c).Issuer = c.Issuer ∧
    (toRegisteredClaims c).Subject = c.Subject ∧
    (toRegisteredClaims c).Audience = c.Audience ∧
    (toRegisteredClaims c).ID = c.ID ∧
    (∀ n, c.Expiry = some n → (toRegisteredClaims c).Expiry = n.sec) ∧
    (c.Expiry = none → (toRegisteredClaims c).Expiry = 0) ∧
    (∀ n, c.NotBefore = some n → (toRegisteredClaims c).NotBefore = n.sec) ∧
    (c.NotBefore = none → (toRegisteredClaims c).NotBefore = 0) ∧
    (∀ n, c.IssuedAt = some n → (toRegisteredClaims c).IssuedAt = n.sec) ∧
    (c.IssuedAt = none → (toRegisteredClaims c).IssuedAt = 0) := by
  obtain ⟨iss, sub, aud, exp, nbf, iat, id⟩ := c
  cases exp <;> cases nbf <;> cases iat <;>
    simp [toRegisteredClaims, NumericDate_Time_Unix]

/-- C7: when `ValidateToken` succeeds with the claims `vc`, the token string has
parsed, the key has been resolved, and with `c` the registered claims decoded from
the token: the issuer, subject, audience (the same list) and ID of
`vc.RegisteredClaims` are those of `c`, and each of its expiry, not-before and
issued-at is the seconds of the corresponding timestamp of `c` when that is
present, and zero when it is absent. -/
theorem ValidateToken_registered_claims {Ctx Key Tok CC : Type} (d : Deps Ctx Key Tok CC)
    (v : Validator Ctx Key) (ctx : Ctx) (tokenString : String) (w : World CC)
    (vc : ValidatedClaims)
    (hok : (ValidateToken d v ctx tokenString w).1 = .returned (some vc) none) :
    ∃ (token : Tok) (kf : Ctx → Except Error Key) (key : Key) (c : jwt.Claims),
      d.ParseSigned tokenString = .ok token ∧ v.keyFunc = some kf ∧ kf ctx = .ok key ∧
      c = (d.Claims token key (v.customClaims.map w.heap)).registered ∧
      vc.RegisteredClaims.Issuer = c.Issuer ∧
      vc.RegisteredClaims.Subject = c.Subject ∧
      vc.RegisteredClaims.Audience = c.Audience ∧
      vc.RegisteredClaims.ID = c.ID ∧
      (∀ n, c.Expiry = some n → vc.RegisteredClaims.Expiry = n.sec) ∧
      (c.Expiry = none → vc.RegisteredClaims.Expiry = 0) ∧
      (∀ n, c.NotBefore = some n → vc.RegisteredClaims.NotBefore = n.sec) ∧
      (c.NotBefore = none → vc.RegisteredClaims.NotBefore = 0) ∧
      (∀ n, c.IssuedAt = some n → vc.RegisteredClaims.IssuedAt = n.sec) ∧
      (c.IssuedAt = none → vc.RegisteredClaims.IssuedAt = 0) := by
  cases hp : d.ParseSigned tokenString with
  | error err => simp [ValidateToken, hp] at hok
  | ok token =>
    cases hh : d.Headers token with
    | nil => simp [ValidateToken, hp, hh] at hok
    | cons header0 rest =>
      by_cases halg : v.signatureAlgorithm = header0.Algorithm
      · cases hk : v.keyFunc with
        | none => simp [ValidateToken, hp, hh, halg, hk] at hok
        | some kf =>
          cases hkey : kf ctx with
          | error err => simp [ValidateToken, hp, hh, halg, hk, hkey] at hok
          | ok key =>
            refine ⟨token, kf, key, _, rfl, rfl, hkey, rfl, ?_⟩
            have hvc : vc.RegisteredClaims = toRegisteredClaims
                (d.Claims token key (v.customClaims.map w.heap)).registered := by
              simp only [ValidateToken, hp, hh, hk, hkey] at hok
              simp only [halg, ne_eq, not_true_eq_false, if_false] at hok
              split at hok
              · simp at hok
              · split at hok
                · simp at hok
                · split at hok
                  · split at hok
                    · simp at hok
                    · simp only [Outcome.returned.injEq, Option.some.injEq, and_true] at hok
                      rw [← hok]
                  · simp only [Outcome.returned.injEq, Option.some.injEq, and_true] at hok
                    rw [← hok]
            rw [hvc]
            exact toRegisteredClaims_fields _
      · simp [ValidateToken, hp, hh, halg] at hok

/-- The instance of C7 on the sample token of alice, whose only timestamp is an
expiry at 150 s. -/
theorem ValidateToken_registered_claims_witness :
    ∃ (token : sample.Token) (kf : Unit → Except Error String) (key : String) (c : jwt.Claims),
      sample.deps.ParseSigned "alice" = .ok token ∧
      (sample.validatorWith sample.keyFunc (Go.Unix 100) ⟨0⟩ none).keyFunc = some kf ∧
      kf () = .ok key ∧
      c = (sample.deps.Claims token key
        ((sample.validatorWith sample.keyFunc (Go.Unix 100) ⟨0⟩ none).customClaims.map
          (sample.worldAt 100).heap)).registered ∧
      "https://issuer.example" = c.Issuer ∧
      "user-1" = c.Subject ∧
      ["svc-a"] = c.Audience ∧
      "id-1" = c.ID ∧
      (∀ n, c.Expiry = some n → (150 : Int) = n.sec) ∧
      (c.Expiry = none → (150 : Int) = 0) ∧
      (∀ n, c.NotBefore = some n → (0 : Int) = n.sec) ∧
      (c.NotBefore = none → (0 : Int) = 0) ∧
      (∀ n, c.IssuedAt = some n → (0 : Int) = n.sec) ∧
      (c.IssuedAt = none → (0 : Int) = 0) :=
  ValidateToken_registered_claims sample.deps
    (sample.validatorWith sample.keyFunc (Go.Unix 100) ⟨0⟩ none) () "alice" (sample.worldAt 100)
    { RegisteredClaims :=
        { Issuer := "https://issuer.example", Subject := "user-1", Audience := ["svc-a"],
          Expiry := 150, NotBefore := 0, IssuedAt := 0, ID := "id-1" }
      CustomClaims := none } rfl

/-- C8, evaluated on the code: a validator whose custom-claims prototype is the
object at address 0, which holds the empty name before any call. The call on the
token of alice succeeds and returns claims whose custom claims refer to address 0,
now holding her name: the prototype has changed. The later call on the token of
bob succeeds as well, returns claims referring to the same address, and leaves the
name of bob there: the custom claims returned by the first call now read bob. -/
theorem ValidateToken_custom_claims_shared_across_calls :
    (sample.worldAt 100).heap 0 = "" ∧
    (ValidateToken sample.deps (sample.validatorWith sample.keyFunc (Go.Unix 100) ⟨0⟩ (some 0))
        () "alice" (sample.worldAt 100)).1 =
      .returned (some
        { RegisteredClaims :=
            { Issuer := "https://issuer.example", Subject := "user-1", Audience := ["svc-a"],
              Expiry := 150, NotBefore := 0, IssuedAt := 0, ID := "id-1" }
          CustomClaims := some 0 }) none ∧
    (ValidateToken sample.deps (sample.validatorWith sample.keyFunc (Go.Unix 100) ⟨0⟩ (some 0))
        () "alice" (sample.worldAt 100)).2.heap 0 = "alice" ∧
    (ValidateToken sample.deps (sample.validatorWith sample.keyFunc (Go.Unix 100) ⟨0⟩ (some 0))
        () "bob"
        (ValidateToken sample.deps
          (sample.validatorWith sample.keyFunc (Go.Unix 100) ⟨0⟩ (some 0))
          () "alice" (sample.worldAt 100)).2).1 =
      .returned (some
        { RegisteredClaims :=
            { Issuer := "https://issuer.example", Subject := "user-1", Audience := ["svc-a"],
              Expiry := 150, NotBefore := 0, IssuedAt := 0, ID := "id-1" }
          CustomClaims := some 0 }) none ∧
    (ValidateToken sample.deps (sample.validatorWith sample.keyFunc (Go.Unix 100) ⟨0⟩ (some 0))
        () "bob"
        (ValidateToken sample.deps
          (sample.validatorWith sample.keyFunc (Go.Unix 100) ⟨0⟩ (some 0))
          () "alice" (sample.worldAt 100)).2).2.heap 0 = "bob" :=
  ⟨rfl, rfl, rfl, rfl, rfl⟩

end validator

/-! ## Properties of the middleware options -/

namespace jwtmiddleware

/-- The loop answers true exactly when some entry equals the full URL or the path. -/
theorem exclusionLoop_eq_true_iff (requestFullURL requestPath : String)
    (exclusions : List String) :
    exclusionLoop requestFullURL requestPath exclusions = true ↔
      ∃ exclusion ∈ exclusions, exclusion = requestFullURL ∨ exclusion = requestPath := by
  induction exclusions with
  | nil => simp [exclusionLoop]
  | cons x rest ih =>
    unfold exclusionLoop
    by_cases hx : requestFullURL = x ∨ requestPath = x
    · rw [if_pos hx]
      refine ⟨fun _ => ⟨x, List.mem_cons_self x rest, ?_⟩, fun _ => rfl⟩
      exact hx.imp Eq.symm Eq.symm
    · rw [if_neg hx, ih]
      constructor
      · rintro ⟨y, hy, hxy⟩
        exact ⟨y, List.mem_cons_of_mem x hy, hxy⟩
      · rintro ⟨y, hy, hxy⟩
        rcases List.mem_cons.mp hy with rfl | hy
        · exact absurd (hxy.imp Eq.symm Eq.symm) hx
        · exact ⟨y, hy, hxy⟩

/-- C9: the exclusion predicate that `WithExclusionUrls exclusions` installs
answers true exactly when some entry of the list equals, as a whole string, the
request's full URL string or the request's URL path; with the empty list it
answers false; and it gives the request back as it received it. -/
theorem WithExclusionUrls_handler {VT EH TE : Type} (urlString : URL → String)
    (exclusions : List String) (m : JWTMiddleware VT EH TE) (r : Request) :
    (((WithExclusionUrls urlString exclusions m).exclusionUrlHandler r).1 = true ↔
      ∃ exclusion ∈ exclusions, exclusion = urlString r.URL ∨ exclusion = r.URL.Path) ∧
    ((WithExclusionUrls urlString [] m).exclusionUrlHandler r).1 = false ∧
    ((WithExclusionUrls urlString exclusions m).exclusionUrlHandler r).2 = r :=
  ⟨exclusionLoop_eq_true_iff (urlString r.URL) r.URL.Path exclusions, rfl, rfl⟩

/-- Instances of C9 on sample requests, with the entries `/health` and
`https://api.example/status`: the path `/health` and the full URL of `/status`
match; a path differing in letter case, and a path that an entry only begins,
do not. -/
theorem WithExclusionUrls_handler_witness :
    ((WithExclusionUrls sample.urlString ["/health", "https://api.example/status"]
        sample.middleware).exclusionUrlHandler (sample.requestFor "/health")).1 = true ∧
    ((WithExclusionUrls sample.urlString ["/health", "https://api.example/status"]
        sample.middleware).exclusionUrlHandler (sample.requestFor "/status")).1 = true ∧
    ((WithExclusionUrls sample.urlString ["/health", "https://api.example/status"]
        sample.middleware).exclusionUrlHandler (sample.requestFor "/Health")).1 = false ∧
    ((WithExclusionUrls sample.urlString ["/health", "https://api.example/status"]
        sample.middleware).exclusionUrlHandler (sample.requestFor "/health/live")).1 = false :=
  ⟨(WithExclusionUrls_handler sample.urlString ["/health", "https://api.example/status"]
      sample.middleware (sample.requestFor "/health")).1.mpr
      ⟨"/health", by simp, Or.inr rfl⟩,
    by decide, by decide, by decide⟩

/-- C10: each of the five options, applied to a middleware configuration `m`,
sets the one field it names (for `WithExclusionUrls`, to the predicate built from
the given list) and leaves the five other fields as they are in `m`. -/
theorem options_set_exactly_one_field {VT EH TE : Type} (m : JWTMiddleware VT EH TE)
    (value : Bool) (h : EH) (e : TE) (urlString : URL → String) (exclusions : List String) :
    ((WithCredentialsOptional value m).credentialsOptional = value ∧
      (WithCredentialsOptional value m).validateOnOptions = m.validateOnOptions ∧
      (WithCredentialsOptional value m).errorHandler = m.errorHandler ∧
      (WithCredentialsOptional value m).tokenExtractor = m.tokenExtractor ∧
      (WithCredentialsOptional value m).exclusionUrlHandler = m.exclusionUrlHandler ∧
      (WithCredentialsOptional value m).validateToken = m.validateToken) ∧
    ((WithValidateOnOptions value m).validateOnOptions = value ∧
      (WithValidateOnOptions value m).credentialsOptional = m.credentialsOptional ∧
      (WithValidateOnOptions value m).errorHandler = m.errorHandler ∧
      (WithValidateOnOptions value m).tokenExtractor = m.tokenExtractor ∧
      (WithValidateOnOptions value m).exclusionUrlHandler = m.exclusionUrlHandler ∧
      (WithValidateOnOptions value m).validateToken = m.validateToken) ∧
    ((WithErrorHandler h m).errorHandler = h ∧
      (WithErrorHandler h m).credentialsOptional = m.credentialsOptional ∧
      (WithErrorHandler h m).validateOnOptions = m.validateOnOptions ∧
      (WithErrorHandler h m).tokenExtractor = m.tokenExtractor ∧
      (WithErrorHandler h m).exclusionUrlHandler = m.exclusionUrlHandler ∧
      (WithErrorHandler h m).validateToken = m.validateToken) ∧
    ((WithTokenExtractor e m).tokenExtractor = e ∧
      (WithTokenExtractor e m).credentialsOptional = m.credentialsOptional ∧
      (WithTokenExtractor e m).validateOnOptions = m.validateOnOptions ∧
      (WithTokenExtractor e m).errorHandler = m.errorHandler ∧
      (WithTokenExtractor e m).exclusionUrlHandler = m.exclusionUrlHandler ∧
      (WithTokenExtractor e m).validateToken = m.validateToken) ∧
    ((WithExclusionUrls urlString exclusions m).exclusionUrlHandler =
        exclusionUrlHandler urlString exclusions ∧
      (WithExclusionUrls urlString exclusions m).credentialsOptional = m.credentialsOptional ∧
      (WithExclusionUrls urlString exclusions m).validateOnOptions = m.validateOnOptions ∧
      (WithExclusionUrls urlString exclusions m).errorHandler = m.errorHandler ∧
      (WithExclusionUrls urlString exclusions m).tokenExtractor = m.tokenExtractor ∧
      (WithExclusionUrls urlString exclusions m).validateToken = m.validateToken) :=
  ⟨⟨rfl, rfl, rfl, rfl, rfl, rfl⟩, ⟨rfl, rfl, rfl, rfl, rfl, rfl⟩, ⟨rfl, rfl, rfl, rfl, rfl, rfl⟩,
    ⟨rfl, rfl, rfl, rfl, rfl, rfl⟩, ⟨rfl, rfl, rfl, rfl, rfl, rfl⟩⟩

end jwtmiddleware
